import Mathlib

/-!
# Verification of the SaaS funnel dataset generator

A shallow embedding of `src/generate_data.py`. Timestamps are modelled as
integers counting minutes (Python `datetime` arithmetic with `timedelta` of
whole minutes/hours/days is exact, so the embedding is faithful); probabilities
and the uniform draws of `random.random()` are modelled as rationals; each call
to `random.randint(a, b)` or to a weighted choice is modelled as an explicit
input parameter, with the range constraints `a ≤ x ≤ b` collected in `WF`
("well-formed randomness") predicates.  Session identifiers (`uuid` strings in
the source) are modelled as naturals drawn from a fresh counter: session `k` of
a user gets identifier `k`, and each post-journey `f"sess_{...}"` call gets a
fresh identifier at or above the number of sessions.  Event fields not used by
any property (page, referrer, properties other than the checkout `attempt`
counter, the payment error code, the churn reason and the invite count) are
elided.
-/

namespace FunnelGen

/-- Acquisition channels, the keys of `CHANNELS`. -/
inductive Channel
  | organic
  | paid_search
  | paid_social
  | partner
  | referral
deriving DecidableEq, Fintype

/-- Device classes, the keys of `DEVICES`. -/
inductive Device
  | web
  | mobile
deriving DecidableEq, Fintype

/-- Countries, the keys of `COUNTRIES`. -/
inductive Country
  | US
  | IN
  | UK
  | CA
  | AU
deriving DecidableEq, Fintype

/-- Company-size brackets, the keys of `COMPANY_SIZES`:
`solo`, `2-10`, `11-50`, `51-200`. -/
inductive CompanySize
  | solo
  | s2_10
  | s11_50
  | s51_200
deriving DecidableEq, Fintype

/-- Personas, the entries of `PERSONAS`. -/
inductive Persona
  | maker
  | startup_ops
  | analyst
  | agency
deriving DecidableEq, Fintype

/-- `BROWSING_EVENTS`: noise events that happen during browsing / research. -/
def BROWSING_EVENTS : List String :=
  ["landing_page_view", "pricing_view", "case_study_view", "docs_view", "faq_view"]

/-- `PRODUCT_EVENTS`: product usage / engagement noise events. -/
def PRODUCT_EVENTS : List String :=
  ["dashboard_view", "settings_view", "project_view", "task_create", "task_update", "search"]

/-- `clamp01`: restrict a value to [0, 1]. -/
def clamp01 (x : ℚ) : ℚ :=
  max 0 (min 1 x)

/-- `onboarding_start_probability`: base probability by channel. -/
def onboarding_start_probability (channel : Channel) : ℚ :=
  match channel with
  | .organic => 0.88
  | .referral => 0.90
  | .paid_search => 0.85
  | .partner => 0.82
  | .paid_social => 0.78

/-- `activation_probability`: base by channel, then the mobile, persona and
company-size adjustments of the source, clamped to [0, 1]. -/
def activation_probability (channel : Channel) (device : Device) (persona : Persona)
    (company_size : CompanySize) : ℚ :=
  let base : ℚ :=
    match channel with
    | .organic => 0.52
    | .referral => 0.58
    | .paid_search => 0.42
    | .partner => 0.38
    | .paid_social => 0.28
  let base := if device = .mobile then base - 0.05 else base
  let base :=
    if persona = .maker ∨ persona = .agency then base + 0.03
    else if persona = .analyst then base + 0.01
    else base
  let base := if company_size = .s51_200 then base - 0.02 else base
  clamp01 base

/-- `value_moment_probability` by persona. -/
def value_moment_probability (persona : Persona) : ℚ :=
  match persona with
  | .maker => 0.35
  | .startup_ops => 0.45
  | .analyst => 0.30
  | .agency => 0.50

/-- `trial_probability`: activated users are much more likely to start a trial. -/
def trial_probability (activated : Bool) (channel : Channel) : ℚ :=
  let base : ℚ := if activated then 0.62 else 0.07
  let base := if channel = .referral ∨ channel = .organic then base + 0.03 else base
  let base := if channel = .paid_social then base - 0.02 else base
  clamp01 base

/-- `payment_failure_probability`: mobile higher; India slightly higher. -/
def payment_failure_probability (device : Device) (country : Country) : ℚ :=
  let base : ℚ := if device = .web then 0.045 else 0.12
  let base := if country = .IN then base + 0.04 else base
  clamp01 base

/-- `trial_to_paid_probability`: channel quality and company-size effects. -/
def trial_to_paid_probability (activated : Bool) (channel : Channel)
    (company_size : CompanySize) : ℚ :=
  let base : ℚ := if activated then 0.42 else 0.06
  let base :=
    if channel = .referral then base + 0.05
    else if channel = .organic then base + 0.03
    else if channel = .paid_social then base - 0.05
    else base
  let base := if company_size = .s11_50 ∨ company_size = .s51_200 then base + 0.04 else base
  clamp01 base

/-- `pick_plan`: plan tier and monthly price from company size.  The source's
`else` branch is reached exactly by the `51-200` bracket. -/
def pick_plan (company_size : CompanySize) : String × ℕ :=
  if company_size = .solo then ("starter", 29)
  else if company_size = .s2_10 ∨ company_size = .s11_50 then ("pro", 79)
  else ("business", 199)

/-- `churn_probability`, keyed by plan name.  The source indexes a dict with the
keys below; it is only ever applied to outputs of `pick_plan`. -/
def churn_probability (plan : String) : ℚ :=
  if plan = "starter" then 0.30
  else if plan = "pro" then 0.18
  else 0.10

/-- A user record as produced by `generate_user`: one static attribute bundle.
The signup timestamp is in minutes. -/
structure User where
  user_id : ℕ
  signup_ts : ℤ
  acquisition_channel : Channel
  device : Device
  country : Country
  company_size : CompanySize
  persona : Persona
  is_b2b_email : Bool
deriving DecidableEq

/-- An event as appended by `add_event`.  `attempt` models the
`props={"attempt": n}` bag of `checkout_start` events (`none` elsewhere);
page, referrer and the remaining property values are elided. -/
structure Event where
  user_id : ℕ
  event_ts : ℤ
  session_id : ℕ
  name : String
  attempt : Option ℕ
deriving DecidableEq

/-- Build an event without an `attempt` property. -/
def mkEv (uid : ℕ) (t : ℤ) (sid : ℕ) (nm : String) : Event :=
  ⟨uid, t, sid, nm, none⟩

/-- Build an event carrying an `attempt` property. -/
def mkEvA (uid : ℕ) (t : ℤ) (sid : ℕ) (nm : String) (a : ℕ) : Event :=
  ⟨uid, t, sid, nm, some a⟩

/-- A subscription record as appended to `subscriptions`. -/
structure Subscription where
  user_id : ℕ
  plan : String
  mrr : ℚ
  subscription_start_ts : ℤ
  churn_ts : Option ℤ
deriving DecidableEq

/-- The per-user journey state threaded through the session loop. -/
structure SessionState where
  activated : Bool
  value_moment : Bool
  trial_started : Bool
  subscribed : Bool
  subscription_start_ts : Option ℤ
deriving DecidableEq

/-- The initial journey state of every user. -/
def initState : SessionState :=
  ⟨false, false, false, false, none⟩

/-- Randomness consumed by the first-session block (signup / email
verification / onboarding).  Rolls are the `random.random()` draws, increments
the `random.randint` draws in minutes. -/
structure FirstSessionRand where
  signupInc : ℕ
  evRoll : ℚ
  evInc : ℕ
  obRoll : ℚ
  obInc : ℕ
  obcRoll : ℚ
  obcInc : ℕ
deriving DecidableEq

/-- Randomness consumed by one iteration of the checkout attempt loop. -/
structure AttemptRand where
  coInc : ℕ
  failRoll : ℚ
  failInc : ℕ
  abortRoll : ℚ
  subRoll : ℚ
  succInc : ℕ
deriving DecidableEq

/-- Randomness consumed by one session of the session loop.  `browse` and
`productEvents` pair each sampled noise-event name with the minute increment
drawn after it; `attempts` has one entry per sampled checkout attempt. -/
structure SessionRand where
  gapHours : ℕ
  jitterMin : ℕ
  browse : List (String × ℕ)
  first : FirstSessionRand
  actRoll : ℚ
  actInc : ℕ
  productEvents : List (String × ℕ)
  vmRoll : ℚ
  invRoll : ℚ
  vmInc : ℕ
  trialRoll : ℚ
  trialInc : ℕ
  attempts : List AttemptRand
  dashRoll : ℚ
  dashInc : ℕ
deriving DecidableEq

/-- Randomness consumed after the session loop (churn, retention markers). -/
structure PostRand where
  churnRoll : ℚ
  churnDays : ℕ
  a7Roll : ℚ
  a30Roll : ℚ
  retRoll : ℚ
  retJitter : ℕ
deriving DecidableEq

/-- All randomness consumed by one user's journey. -/
structure UserRand where
  sessions : List SessionRand
  post : PostRand
deriving DecidableEq

/-- Range constraints of the `randint` calls feeding a checkout attempt. -/
def AttemptRand.WF (a : AttemptRand) : Prop :=
  1 ≤ a.coInc ∧ a.coInc ≤ 10 ∧ 3 ≤ a.failInc ∧ a.failInc ≤ 25 ∧
    1 ≤ a.succInc ∧ a.succInc ≤ 15

instance (a : AttemptRand) : Decidable a.WF := by
  unfold AttemptRand.WF
  exact inferInstance

/-- Range constraints of the `randint` calls of the first-session block. -/
def FirstSessionRand.WF (f : FirstSessionRand) : Prop :=
  1 ≤ f.signupInc ∧ f.signupInc ≤ 30 ∧ 1 ≤ f.evInc ∧ f.evInc ≤ 30 ∧
    2 ≤ f.obInc ∧ f.obInc ≤ 60 ∧ 2 ≤ f.obcInc ∧ f.obcInc ≤ 30

instance (f : FirstSessionRand) : Decidable f.WF := by
  unfold FirstSessionRand.WF
  exact inferInstance

/-- Range and vocabulary constraints of the draws feeding one session:
the gap is one of {0,1,3,8,24,48} hours, the jitter at most 120 minutes,
1–4 browsing-noise events from `BROWSING_EVENTS` with 1–20 minute increments,
1–4 product-noise events from `PRODUCT_EVENTS` with 1–25 minute increments,
1–3 checkout attempts, and the remaining `randint` bounds of the source. -/
def SessionRand.WF (s : SessionRand) : Prop :=
  s.gapHours ∈ [0, 1, 3, 8, 24, 48] ∧ s.jitterMin ≤ 120 ∧
    1 ≤ s.browse.length ∧ s.browse.length ≤ 4 ∧
    (∀ p ∈ s.browse, p.1 ∈ BROWSING_EVENTS ∧ 1 ≤ p.2 ∧ p.2 ≤ 20) ∧
    s.first.WF ∧ 2 ≤ s.actInc ∧ s.actInc ≤ 40 ∧
    1 ≤ s.productEvents.length ∧ s.productEvents.length ≤ 4 ∧
    (∀ p ∈ s.productEvents, p.1 ∈ PRODUCT_EVENTS ∧ 1 ≤ p.2 ∧ p.2 ≤ 25) ∧
    2 ≤ s.vmInc ∧ s.vmInc ≤ 45 ∧ 1 ≤ s.trialInc ∧ s.trialInc ≤ 30 ∧
    1 ≤ s.attempts.length ∧ s.attempts.length ≤ 3 ∧
    (∀ a ∈ s.attempts, a.WF) ∧ 1 ≤ s.dashInc ∧ s.dashInc ≤ 20

instance (s : SessionRand) : Decidable s.WF := by
  unfold SessionRand.WF
  exact inferInstance

/-- Range constraints of the post-journey draws: the churn offset is
`randint(30, 75)` days and the non-subscriber retention jitter is
`randint(0, 600)` minutes. -/
def PostRand.WF (p : PostRand) : Prop :=
  30 ≤ p.churnDays ∧ p.churnDays ≤ 75 ∧ p.retJitter ≤ 600

instance (p : PostRand) : Decidable p.WF := by
  unfold PostRand.WF
  exact inferInstance

/-- Well-formed randomness for a whole journey: 1–5 sessions, each session's
and the post-journey draws in range. -/
def UserRand.WF (ur : UserRand) : Prop :=
  1 ≤ ur.sessions.length ∧ ur.sessions.length ≤ 5 ∧
    (∀ s ∈ ur.sessions, s.WF) ∧ ur.post.WF

instance (ur : UserRand) : Decidable ur.WF := by
  unfold UserRand.WF
  exact inferInstance

/-- The channel base activation values exactly as the claim tabulates them. -/
def activation_base_spec (channel : Channel) : ℚ :=
  match channel with
  | .organic => 0.52
  | .paid_search => 0.42
  | .paid_social => 0.28
  | .partner => 0.38
  | .referral => 0.58

/-- The activation probability as the specification words it: the channel base
adjusted by −0.05 for mobile, +0.03 for maker or agency, +0.01 for analyst,
−0.02 for the 51-200 bracket, clamped to [0, 1]. -/
def activation_probability_spec (channel : Channel) (device : Device) (persona : Persona)
    (company_size : CompanySize) : ℚ :=
  clamp01 (activation_base_spec channel
    + (if device = .mobile then -0.05 else 0)
    + (if persona = .maker ∨ persona = .agency then 0.03 else 0)
    + (if persona = .analyst then 0.01 else 0)
    + (if company_size = .s51_200 then -0.02 else 0))

/-- The per-session start baseline.  The source sets `t0 = user["signup_ts"]`
once, before the session loop, and never reassigns it, so the baseline of every
session index is the user's signup timestamp. -/
def session_baseline (u : User) (_k : ℕ) : ℤ :=
  u.signup_ts

/-- The start time of session `k`: the session baseline plus the sampled gap
(in hours) plus the sub-hour jitter (in minutes). -/
def session_start (u : User) (k : ℕ) (sr : SessionRand) : ℤ :=
  session_baseline u k + 60 * (sr.gapHours : ℤ) + (sr.jitterMin : ℤ)

/-- Emit a run of noise events (browsing or product usage): each event is
emitted at the current clock, which then advances by the paired increment. -/
def simNoise (uid sid : ℕ) : ℤ → List (String × ℕ) → ℤ × List Event
  | t, [] => (t, [])
  | t, (nm, inc) :: rest =>
    let r := simNoise uid sid (t + (inc : ℤ)) rest
    (r.1, mkEv uid t sid nm :: r.2)

/-- The first-session block: `signup`, then conditionally `email_verified`,
then conditionally `onboarding_start` and, nested under it, conditionally
`onboarding_complete`. -/
def simFirstSession (u : User) (sid : ℕ) (t : ℤ) (fr : FirstSessionRand) : ℤ × List Event :=
  let ev0 := mkEv u.user_id t sid "signup"
  let t1 := t + (fr.signupInc : ℤ)
  let r1 : ℤ × List Event :=
    if fr.evRoll < 0.78 then
      (t1 + (fr.evInc : ℤ), [mkEv u.user_id t1 sid "email_verified"])
    else (t1, [])
  let r2 : ℤ × List Event :=
    if fr.obRoll < onboarding_start_probability u.acquisition_channel then
      let evA := mkEv u.user_id r1.1 sid "onboarding_start"
      let t2 := r1.1 + (fr.obInc : ℤ)
      if fr.obcRoll < 0.70 then
        (t2 + (fr.obcInc : ℤ), [evA, mkEv u.user_id t2 sid "onboarding_complete"])
      else (t2, [evA])
    else (r1.1, [])
  (r2.1, ev0 :: r1.2 ++ r2.2)

/-- Output of the activation block. -/
structure ActOut where
  t : ℤ
  evs : List Event
  activated : Bool
  value_moment : Bool

/-- The activation block: if not yet activated, roll the activation
probability; on success emit `create_first_project`, product-usage noise, and
conditionally one value-moment event. -/
def simActivation (u : User) (sid : ℕ) (t : ℤ) (activated value_moment : Bool)
    (sr : SessionRand) : ActOut :=
  if activated = false then
    if sr.actRoll < activation_probability u.acquisition_channel u.device u.persona
        u.company_size then
      let ev0 := mkEv u.user_id t sid "create_first_project"
      let t1 := t + (sr.actInc : ℤ)
      let r1 := simNoise u.user_id sid t1 sr.productEvents
      if sr.vmRoll < value_moment_probability u.persona then
        let ev2 :=
          if sr.invRoll < 0.55 then mkEv u.user_id r1.1 sid "invite_teammate"
          else mkEv u.user_id r1.1 sid "connect_integration"
        ⟨r1.1 + (sr.vmInc : ℤ), ev0 :: r1.2 ++ [ev2], true, true⟩
      else ⟨r1.1, ev0 :: r1.2, true, value_moment⟩
    else ⟨t, [], activated, value_moment⟩
  else ⟨t, [], activated, value_moment⟩

/-- Output of the checkout attempt loop and of the trial block. -/
structure TrialOut where
  t : ℤ
  evs : List Event
  subscribed : Bool
  subscription_start_ts : Option ℤ

/-- The checkout attempt loop.  `idx` counts already-run attempts, so the
emitted `checkout_start` carries attempt number `idx + 1`.  On a failed
attempt, `payment_failed` is emitted and the loop aborts when the 0.65 roll
hits; on a non-failed attempt the trial-to-paid roll may create the
subscription, and the loop always breaks. -/
def runAttempts (u : User) (activated : Bool) (sid : ℕ) :
    ℕ → ℤ → Bool → Option ℤ → List AttemptRand → TrialOut
  | _, t, subscribed, sts, [] => ⟨t, [], subscribed, sts⟩
  | idx, t, subscribed, sts, ar :: rest =>
    let ev0 := mkEvA u.user_id t sid "checkout_start" (idx + 1)
    let t1 := t + (ar.coInc : ℤ)
    if ar.failRoll < payment_failure_probability u.device u.country then
      let ev1 := mkEv u.user_id t1 sid "payment_failed"
      let t2 := t1 + (ar.failInc : ℤ)
      if ar.abortRoll < 0.65 then
        ⟨t2, [ev0, ev1], subscribed, sts⟩
      else
        let r := runAttempts u activated sid (idx + 1) t2 subscribed sts rest
        ⟨r.t, ev0 :: ev1 :: r.evs, r.subscribed, r.subscription_start_ts⟩
    else
      if subscribed = false ∧
          ar.subRoll < trial_to_paid_probability activated u.acquisition_channel
            u.company_size then
        ⟨t1 + (ar.succInc : ℤ), [ev0, mkEv u.user_id t1 sid "subscription_created"],
          true, some t1⟩
      else ⟨t1 + (ar.succInc : ℤ), [ev0], subscribed, sts⟩

/-- The trial block: if no trial has started yet, roll the trial probability;
on success emit `trial_start` and run the checkout attempt loop. -/
def simTrial (u : User) (sid : ℕ) (t : ℤ) (activated trial_started subscribed : Bool)
    (sts : Option ℤ) (sr : SessionRand) : TrialOut × Bool :=
  if trial_started = false ∧ sr.trialRoll < trial_probability activated u.acquisition_channel then
    let ev0 := mkEv u.user_id t sid "trial_start"
    let t1 := t + (sr.trialInc : ℤ)
    let r := runAttempts u activated sid 0 t1 subscribed sts sr.attempts
    (⟨r.t, ev0 :: r.evs, r.subscribed, r.subscription_start_ts⟩, true)
  else (⟨t, [], subscribed, sts⟩, trial_started)

/-- The retention-proxy block: an activated user views the dashboard with
probability 0.55 if subscribed, else 0.40. -/
def simDashboard (u : User) (sid : ℕ) (t : ℤ) (activated subscribed : Bool)
    (sr : SessionRand) : ℤ × List Event :=
  if activated = true then
    if sr.dashRoll < (if subscribed = false then (0.40 : ℚ) else 0.55) then
      (t + (sr.dashInc : ℤ), [mkEv u.user_id t sid "dashboard_view"])
    else (t, [])
  else (t, [])

/-- One iteration of the session loop: session `s` of the user, with session
identifier `sid`.  Blocks run in the source's order — browsing noise, the
first-session block (session 0 only), activation, trial/checkout, retention
proxy — threading the session clock and the journey state. -/
def simSession (u : User) (s sid : ℕ) (sr : SessionRand) (st : SessionState) :
    List Event × SessionState :=
  let t0 := session_start u s sr
  let r1 := simNoise u.user_id sid t0 sr.browse
  let r2 := if s = 0 then simFirstSession u sid r1.1 sr.first else (r1.1, [])
  let r3 := simActivation u sid r2.1 st.activated st.value_moment sr
  let r4 := simTrial u sid r3.t r3.activated st.trial_started st.subscribed
    st.subscription_start_ts sr
  let r5 := simDashboard u sid r4.1.t r3.activated r4.1.subscribed sr
  (r1.2 ++ r2.2 ++ r3.evs ++ r4.1.evs ++ r5.2,
    ⟨r3.activated, r3.value_moment, r4.2, r4.1.subscribed, r4.1.subscription_start_ts⟩)

/-- The session loop from session index `s` on: session `k` is assigned the
fresh identifier `k`. -/
def simSessions (u : User) : ℕ → SessionState → List SessionRand → List Event × SessionState
  | _, st, [] => ([], st)
  | s, st, sr :: rest =>
    let r1 := simSession u s s sr st
    let r2 := simSessions u (s + 1) r1.2 rest
    (r1.1 ++ r2.1, r2.2)

/-- The churn timestamp decision: with probability `churn_probability plan`,
churn `churnDays` (30–75) days after subscription start, else retained. -/
def churn_ts_of (plan : String) (sts : ℤ) (pr : PostRand) : Option ℤ :=
  if pr.churnRoll < churn_probability plan then some (sts + 1440 * (pr.churnDays : ℤ))
  else none

/-- The eligibility guard of the retention markers:
`churn_ts is None or (churn_ts - subscription_start_ts).days >= d`.
Python's `.days` is the floor of the difference in whole days. -/
def retention_guard (sts : ℤ) (churn_ts : Option ℤ) (d : ℤ) : Bool :=
  match churn_ts with
  | none => true
  | some cts => decide (d ≤ Int.fdiv (cts - sts) 1440)

/-- The post-journey block: for a subscriber, the churn decision, the
`cancel_subscription` event, the subscription record and the `active_day_7` /
`active_day_30` markers; for a non-subscriber, the 18% `active_day_7` marker
for activated users.  `sidBase` is the next fresh session identifier. -/
def simPost (u : User) (st : SessionState) (pr : PostRand) (sidBase : ℕ) :
    List Event × List Subscription :=
  match st.subscribed, st.subscription_start_ts with
  | true, some sts =>
    let plan := (pick_plan u.company_size).1
    let mrr := (pick_plan u.company_size).2
    let cts := churn_ts_of plan sts pr
    let churnEvs : List Event :=
      match cts with
      | some c => [mkEv u.user_id c sidBase "cancel_subscription"]
      | none => []
    let sub : Subscription := ⟨u.user_id, plan, (mrr : ℚ), sts, cts⟩
    let a7Evs : List Event :=
      if retention_guard sts cts 7 = true then
        if pr.a7Roll < 0.60 then
          [mkEv u.user_id (sts + 1440 * 7) (sidBase + 1) "active_day_7"]
        else []
      else []
    let a30Evs : List Event :=
      if retention_guard sts cts 30 = true then
        if pr.a30Roll < 0.45 then
          [mkEv u.user_id (sts + 1440 * 30) (sidBase + 2) "active_day_30"]
        else []
      else []
    (churnEvs ++ a7Evs ++ a30Evs, [sub])
  | _, _ =>
    if st.activated = true ∧ pr.retRoll < 0.18 then
      ([mkEv u.user_id (u.signup_ts + 1440 * 7 + (pr.retJitter : ℤ)) sidBase "active_day_7"],
        [])
    else ([], [])

/-- One full user iteration of `generate_data`: run the session loop from the
initial state, then the post-journey block, collecting the user's events and
subscription records. -/
def simUser (u : User) (ur : UserRand) : List Event × List Subscription :=
  let r1 := simSessions u 0 initState ur.sessions
  let r2 := simPost u r1.2 ur.post ur.sessions.length
  (r1.1 ++ r2.1, r2.2)

/-! ## Concrete runs used to witness the theorems below -/

/-- A concrete user: organic / web / US / solo / maker, signup at minute 1000. -/
def u0 : User :=
  ⟨1, 1000, .organic, .web, .US, .solo, .maker, true⟩

/-- First-session randomness where every roll hits (rolls 0). -/
def fr0 : FirstSessionRand :=
  ⟨5, 0, 5, 0, 5, 0, 5⟩

/-- A checkout attempt that does not fail and whose trial-to-paid roll hits. -/
def at0 : AttemptRand :=
  ⟨2, 1, 5, 1, 0, 3⟩

/-- A session in which the user activates, reaches the value moment, starts the
trial and subscribes on the first checkout attempt. -/
def sr0 : SessionRand :=
  ⟨0, 10, [("landing_page_view", 5)], fr0, 0, 5, [("search", 2)], 0, 0, 5, 0, 5, [at0], 1, 5⟩

/-- Post-journey randomness: churn after 30 days, both retention rolls hit. -/
def pr0 : PostRand :=
  ⟨0, 30, 0, 0, 1, 0⟩

/-- A one-session journey ending in a churned subscription. -/
def ur0 : UserRand :=
  ⟨[sr0], pr0⟩

/-- First-session randomness where every roll misses (rolls 1). -/
def fr1 : FirstSessionRand :=
  ⟨5, 1, 5, 1, 5, 1, 5⟩

/-- A quiet session: every roll misses. -/
def sr1 : SessionRand :=
  ⟨1, 0, [("faq_view", 3)], fr1, 1, 5, [("search", 2)], 1, 1, 5, 1, 5, [at0], 1, 5⟩

/-- A two-session journey (used to witness consecutive-session properties). -/
def ur1 : UserRand :=
  ⟨[sr1, sr1], pr0⟩

/-- The events of the journey `simUser u0 ur0` (session part). -/
def evList0 : List Event :=
  [mkEv 1 1010 0 "landing_page_view", mkEv 1 1015 0 "signup",
    mkEv 1 1020 0 "email_verified", mkEv 1 1025 0 "onboarding_start",
    mkEv 1 1030 0 "onboarding_complete", mkEv 1 1035 0 "create_first_project",
    mkEv 1 1040 0 "search", mkEv 1 1042 0 "invite_teammate",
    mkEv 1 1047 0 "trial_start", mkEvA 1 1052 0 "checkout_start" 1,
    mkEv 1 1054 0 "subscription_created"]

/-- The post-journey events of `simUser u0 ur0`. -/
def postList0 : List Event :=
  [mkEv 1 44254 1 "cancel_subscription", mkEv 1 11134 2 "active_day_7",
    mkEv 1 44254 3 "active_day_30"]

/-- The subscription record of `simUser u0 ur0`. -/
def sub0 : Subscription :=
  ⟨1, "starter", 29, 1054, some 44254⟩

/-- The journey state reached by `simUser u0 ur0` after its session loop. -/
def st0 : SessionState :=
  ⟨true, true, true, true, some 1054⟩

/-- `SessEmits sid X evs Y`: the events `evs` were emitted while the session
clock ran from `X` to `Y` inside session `sid` — the clock is monotone, every
event carries session identifier `sid` and a timestamp in `[X, Y)`, and
timestamps strictly increase in emission order. -/
def SessEmits (sid : ℕ) (X : ℤ) (evs : List Event) (Y : ℤ) : Prop :=
  X ≤ Y ∧ (∀ e ∈ evs, e.session_id = sid ∧ X ≤ e.event_ts ∧ e.event_ts < Y) ∧
    evs.Chain' (fun a b => a.event_ts < b.event_ts)

/-- Event-name test used to select events by name. -/
def isNamed (nm : String) (e : Event) : Bool :=
  e.name == nm

/-- How a block evolves the subscription fields within session `sid`, with the
block clock starting at `X`: either nothing changes and the block emits no
`subscription_created` event, or the block flips `subscribed` from false to
true, records a start timestamp `τ ≥ X`, and emits exactly one
`subscription_created` event, timestamped `τ`. -/
def SubSpec (u : User) (sid : ℕ) (X : ℤ) (sub0 sub1 : Bool) (sts0 sts1 : Option ℤ)
    (evs : List Event) : Prop :=
  (sub1 = sub0 ∧ sts1 = sts0 ∧ evs.filter (isNamed "subscription_created") = [])
  ∨ (sub0 = false ∧ sub1 = true ∧ ∃ τ, sts1 = some τ ∧ X ≤ τ ∧
      evs.filter (isNamed "subscription_created") = [mkEv u.user_id τ sid "subscription_created"])

/-- `SubSpec` aggregated over several sessions: the session identifier of the
single `subscription_created` event becomes existential. -/
def SubSpecM (u : User) (X : ℤ) (sub0 sub1 : Bool) (sts0 sts1 : Option ℤ)
    (evs : List Event) : Prop :=
  (sub1 = sub0 ∧ sts1 = sts0 ∧ evs.filter (isNamed "subscription_created") = [])
  ∨ (sub0 = false ∧ sub1 = true ∧ ∃ τ sid, sts1 = some τ ∧ X ≤ τ ∧
      evs.filter (isNamed "subscription_created") = [mkEv u.user_id τ sid "subscription_created"])

end FunnelGen

namespace FunnelGen

/-! ## Evaluation of the concrete runs -/

lemma eval0_noise : simNoise u0.user_id 0 1010 sr0.browse = (1015, [mkEv 1 1010 0 "landing_page_view"]) := by
  simp only [simNoise, sr0, u0, reduceCtorEq, reduceIte]
  norm_num

lemma eval0_first : simFirstSession u0 0 1015 sr0.first =
    (1035, [mkEv 1 1015 0 "signup", mkEv 1 1020 0 "email_verified",
      mkEv 1 1025 0 "onboarding_start", mkEv 1 1030 0 "onboarding_complete"]) := by
  simp only [simFirstSession, sr0, fr0, u0, onboarding_start_probability, reduceCtorEq, reduceIte]
  all_goals norm_num

lemma eval0_act : simActivation u0 0 1035 false false sr0 =
    ⟨1047, [mkEv 1 1035 0 "create_first_project", mkEv 1 1040 0 "search",
      mkEv 1 1042 0 "invite_teammate"], true, true⟩ := by
  simp only [simActivation, sr0, u0, activation_probability, value_moment_probability,
    clamp01, max_def, min_def, simNoise, reduceCtorEq, reduceIte]
  all_goals norm_num

lemma eval0_trial : simTrial u0 0 1047 true false false none sr0 =
    (⟨1057, [mkEv 1 1047 0 "trial_start", mkEvA 1 1052 0 "checkout_start" 1,
      mkEv 1 1054 0 "subscription_created"], true, some 1054⟩, true) := by
  simp only [simTrial, runAttempts, sr0, at0, u0, trial_probability,
    payment_failure_probability, trial_to_paid_probability, clamp01, max_def, min_def,
    mkEvA, reduceCtorEq, reduceIte]
  all_goals norm_num

lemma eval0_dash : simDashboard u0 0 1057 true true sr0 = (1057, []) := by
  simp only [simDashboard, sr0, u0, reduceCtorEq, reduceIte]
  all_goals norm_num

lemma eval0_start : session_start u0 0 sr0 = 1010 := by
  simp only [session_start, session_baseline, u0, sr0]
  norm_num

lemma eval0_session : simSession u0 0 0 sr0 initState = (evList0, st0) := by
  rw [simSession]
  simp only [eval0_start, eval0_noise, initState, eval0_first, eval0_act, eval0_trial,
    eval0_dash, reduceCtorEq, reduceIte]
  simp [evList0, st0]

lemma eval0_sessions : simSessions u0 0 initState [sr0] = (evList0, st0) := by
  simp only [simSessions, eval0_session]
  simp

lemma eval0_post : simPost u0 st0 pr0 1 = (postList0, [sub0]) := by
  simp only [simPost, st0, pr0, u0, pick_plan, churn_probability, churn_ts_of,
    retention_guard, Int.fdiv, mkEv, reduceCtorEq, reduceIte]
  all_goals norm_num [postList0, sub0, mkEv]

lemma eval0_user : simUser u0 ur0 = (evList0 ++ postList0, [sub0]) := by
  rw [simUser]
  simp only [ur0, eval0_sessions, List.length_cons, List.length_nil, Nat.reduceAdd, eval0_post]

/-! ## The session-clock invariant and its algebra -/

lemma SessEmits.nil (sid : ℕ) (X : ℤ) : SessEmits sid X [] X := by
  refine ⟨le_refl X, ?_, ?_⟩ <;> simp

lemma SessEmits.single {sid : ℕ} {X Y : ℤ} {e : Event} (hsid : e.session_id = sid)
    (hts : e.event_ts = X) (hXY : X < Y) : SessEmits sid X [e] Y := by
  refine ⟨le_of_lt hXY, ?_, ?_⟩
  · intro f hf
    rw [List.mem_singleton] at hf
    subst hf
    exact ⟨hsid, le_of_eq hts.symm, by rw [hts]; exact hXY⟩
  · simp

lemma SessEmits.mono {sid : ℕ} {X Y Z : ℤ} {evs : List Event}
    (h : SessEmits sid X evs Y) (hYZ : Y ≤ Z) : SessEmits sid X evs Z := by
  obtain ⟨h1, h2, h3⟩ := h
  refine ⟨le_trans h1 hYZ, fun e he => ?_, h3⟩
  obtain ⟨ha, hb, hc⟩ := h2 e he
  exact ⟨ha, hb, lt_of_lt_of_le hc hYZ⟩

lemma SessEmits.append {sid : ℕ} {X Y Z : ℤ} {evs1 evs2 : List Event}
    (h1 : SessEmits sid X evs1 Y) (h2 : SessEmits sid Y evs2 Z) :
    SessEmits sid X (evs1 ++ evs2) Z := by
  obtain ⟨hXY, hm1, hc1⟩ := h1
  obtain ⟨hYZ, hm2, hc2⟩ := h2
  refine ⟨le_trans hXY hYZ, ?_, ?_⟩
  · intro e he
    rcases List.mem_append.1 he with he | he
    · obtain ⟨ha, hb, hc⟩ := hm1 e he
      exact ⟨ha, hb, lt_of_lt_of_le hc hYZ⟩
    · obtain ⟨ha, hb, hc⟩ := hm2 e he
      exact ⟨ha, le_trans hXY hb, hc⟩
  · refine hc1.append hc2 ?_
    intro x hx y hy
    have hx' := (hm1 x (List.mem_of_mem_getLast? hx)).2.2
    have hy' := (hm2 y (List.mem_of_mem_head? hy)).2.1
    exact lt_of_lt_of_le hx' hy'

lemma SessEmits.cons {sid : ℕ} {X Y : ℤ} {e : Event} {evs : List Event}
    (hsid : e.session_id = sid) (hts : e.event_ts = X) {X' : ℤ} (hX : X < X')
    (h : SessEmits sid X' evs Y) : SessEmits sid X (e :: evs) Y :=
  (SessEmits.single hsid hts hX).append h

lemma SessEmits.singleMk {sid : ℕ} {X Y : ℤ} (uid : ℕ) (nm : String) (hXY : X < Y) :
    SessEmits sid X [mkEv uid X sid nm] Y :=
  SessEmits.single rfl rfl hXY

lemma SessEmits.singleMkA {sid : ℕ} {X Y : ℤ} (uid : ℕ) (nm : String) (a : ℕ) (hXY : X < Y) :
    SessEmits sid X [mkEvA uid X sid nm a] Y :=
  SessEmits.single rfl rfl hXY

lemma SessEmits.consMk {sid : ℕ} {X X' Y : ℤ} {evs : List Event} (uid : ℕ) (nm : String)
    (hX : X < X') (h : SessEmits sid X' evs Y) : SessEmits sid X (mkEv uid X sid nm :: evs) Y :=
  SessEmits.cons rfl rfl hX h

lemma SessEmits.consMkA {sid : ℕ} {X X' Y : ℤ} {evs : List Event} (uid : ℕ) (nm : String)
    (a : ℕ) (hX : X < X') (h : SessEmits sid X' evs Y) :
    SessEmits sid X (mkEvA uid X sid nm a :: evs) Y :=
  SessEmits.cons rfl rfl hX h

/-! ## Emission lemmas for the journey blocks -/

lemma simNoise_emits (uid sid : ℕ) :
    ∀ (l : List (String × ℕ)) (t : ℤ), (∀ p ∈ l, 1 ≤ p.2) →
      SessEmits sid t (simNoise uid sid t l).2 (simNoise uid sid t l).1
  | [], t, _ => by
    simpa [simNoise] using SessEmits.nil sid t
  | (nm, inc) :: rest, t, h => by
    have hinc : (1 : ℕ) ≤ inc := h (nm, inc) (List.mem_cons_self _ _)
    have hrest := simNoise_emits uid sid rest (t + (inc : ℤ))
      (fun p hp => h p (List.mem_cons_of_mem _ hp))
    simp only [simNoise]
    refine SessEmits.cons rfl rfl ?_ hrest
    have : (0 : ℤ) < (inc : ℤ) := by exact_mod_cast hinc
    omega

lemma simNoise_clock (uid sid : ℕ) :
    ∀ (l : List (String × ℕ)) (t : ℤ), t ≤ (simNoise uid sid t l).1
  | [], t => by simp [simNoise]
  | (nm, inc) :: rest, t => by
    have := simNoise_clock uid sid rest (t + (inc : ℤ))
    simp only [simNoise]
    omega

lemma simFirstSession_emits (u : User) (sid : ℕ) (t : ℤ) (fr : FirstSessionRand)
    (hwf : fr.WF) :
    SessEmits sid t (simFirstSession u sid t fr).2 (simFirstSession u sid t fr).1 := by
  obtain ⟨h1, h2, h3, h4, h5, h6, h7, h8⟩ := hwf
  simp only [simFirstSession]
  split_ifs <;>
    · simp only [SessEmits, mkEv, List.cons_append, List.nil_append, List.forall_mem_cons,
        List.forall_mem_ne, List.not_mem_nil, List.chain'_cons, List.chain'_singleton,
        List.chain'_nil, List.mem_singleton, forall_eq, List.Chain', and_true, true_and]
      refine ⟨by omega, ?_, ?_⟩ <;> simp <;> omega

lemma simActivation_emits (u : User) (sid : ℕ) (t : ℤ) (act vm : Bool) (sr : SessionRand)
    (hwf : sr.WF) :
    SessEmits sid t (simActivation u sid t act vm sr).evs (simActivation u sid t act vm sr).t := by
  obtain ⟨hg, hj, hb1, hb2, hb3, hfw, ha1, ha2, hp1, hp2, hp3, hv1, hv2, ht1, ht2,
    hat1, hat2, hat3, hd1, hd2⟩ := hwf
  have hnoise := simNoise_emits u.user_id sid sr.productEvents (t + (sr.actInc : ℤ))
    (fun p hp => (hp3 p hp).2.1)
  simp only [simActivation]
  split_ifs with hact hroll hvm hinv <;> dsimp only
  · exact SessEmits.consMk _ _ (by omega) (hnoise.append (SessEmits.singleMk _ _ (by omega)))
  · exact SessEmits.consMk _ _ (by omega) (hnoise.append (SessEmits.singleMk _ _ (by omega)))
  · exact SessEmits.consMk _ _ (by omega) hnoise
  · exact SessEmits.nil sid t
  · exact SessEmits.nil sid t

lemma runAttempts_emits (u : User) (act : Bool) (sid : ℕ) :
    ∀ (l : List AttemptRand) (idx : ℕ) (t : ℤ) (sub : Bool) (sts : Option ℤ),
      (∀ a ∈ l, a.WF) →
      SessEmits sid t (runAttempts u act sid idx t sub sts l).evs
        (runAttempts u act sid idx t sub sts l).t
  | [], idx, t, sub, sts, _ => by
    simpa [runAttempts] using SessEmits.nil sid t
  | ar :: rest, idx, t, sub, sts, h => by
    obtain ⟨hc1, hc2, hf1, hf2, hs1, hs2⟩ := h ar (List.mem_cons_self _ _)
    have hrest := runAttempts_emits u act sid rest (idx + 1)
      (t + (ar.coInc : ℤ) + (ar.failInc : ℤ)) sub sts
      (fun a ha => h a (List.mem_cons_of_mem _ ha))
    simp only [runAttempts]
    split_ifs with hfail habort hsub <;> dsimp only
    · exact SessEmits.consMkA _ _ _ (by omega) (SessEmits.singleMk _ _ (by omega))
    · exact SessEmits.consMkA _ _ _ (by omega) (SessEmits.consMk _ _ (by omega) hrest)
    · exact SessEmits.consMkA _ _ _ (by omega) (SessEmits.singleMk _ _ (by omega))
    · exact SessEmits.singleMkA _ _ _ (by omega)

lemma simTrial_emits (u : User) (sid : ℕ) (t : ℤ) (act ts sub : Bool) (sts : Option ℤ)
    (sr : SessionRand) (hwf : sr.WF) :
    SessEmits sid t (simTrial u sid t act ts sub sts sr).1.evs
      (simTrial u sid t act ts sub sts sr).1.t := by
  obtain ⟨hg, hj, hb1, hb2, hb3, hfw, ha1, ha2, hp1, hp2, hp3, hv1, hv2, ht1, ht2,
    hat1, hat2, hat3, hd1, hd2⟩ := hwf
  have hatt := runAttempts_emits u act sid sr.attempts 0 (t + (sr.trialInc : ℤ)) sub sts hat3
  simp only [simTrial]
  split_ifs with htrial <;> dsimp only
  · exact SessEmits.consMk _ _ (by omega) hatt
  · exact SessEmits.nil sid t

lemma simDashboard_emits (u : User) (sid : ℕ) (t : ℤ) (act sub : Bool) (sr : SessionRand)
    (hwf : sr.WF) :
    SessEmits sid t (simDashboard u sid t act sub sr).2 (simDashboard u sid t act sub sr).1 := by
  obtain ⟨hg, hj, hb1, hb2, hb3, hfw, ha1, ha2, hp1, hp2, hp3, hv1, hv2, ht1, ht2,
    hat1, hat2, hat3, hd1, hd2⟩ := hwf
  simp only [simDashboard]
  split_ifs <;> dsimp only <;>
    first
      | exact SessEmits.singleMk _ _ (by omega)
      | exact SessEmits.nil sid t

lemma simSession_emits (u : User) (s sid : ℕ) (sr : SessionRand) (st : SessionState)
    (hwf : sr.WF) :
    ∃ Y, SessEmits sid (session_start u s sr) (simSession u s sid sr st).1 Y := by
  have hwf' := hwf
  obtain ⟨hg, hj, hb1, hb2, hb3, hfw, ha1, ha2, hp1, hp2, hp3, hv1, hv2, ht1, ht2,
    hat1, hat2, hat3, hd1, hd2⟩ := hwf'
  have h1 := simNoise_emits u.user_id sid sr.browse (session_start u s sr)
    (fun p hp => (hb3 p hp).2.1)
  simp only [simSession]
  by_cases hs : s = 0
  · subst hs
    simp only [if_pos rfl]
    exact ⟨_, (((h1.append (simFirstSession_emits u sid _ sr.first hfw)).append
      (simActivation_emits u sid _ st.activated st.value_moment sr hwf)).append
      (simTrial_emits u sid _ _ st.trial_started st.subscribed st.subscription_start_ts
        sr hwf)).append
      (simDashboard_emits u sid _ _ _ sr hwf)⟩
  · simp only [if_neg hs]
    exact ⟨_, ((((h1.append (SessEmits.nil sid _)).append
      (simActivation_emits u sid _ st.activated st.value_moment sr hwf)).append
      (simTrial_emits u sid _ _ st.trial_started st.subscribed st.subscription_start_ts
        sr hwf)).append
      (simDashboard_emits u sid _ _ _ sr hwf))⟩

lemma simNoise_names (uid sid : ℕ) {P : String → Prop} :
    ∀ (l : List (String × ℕ)) (t : ℤ), (∀ p ∈ l, P p.1) →
      ∀ e ∈ (simNoise uid sid t l).2, P e.name
  | [], t, _ => by simp [simNoise]
  | (nm, inc) :: rest, t, h => by
    intro e he
    simp only [simNoise, List.mem_cons] at he
    rcases he with he | he
    · subst he
      exact h (nm, inc) (List.mem_cons_self _ _)
    · exact simNoise_names uid sid rest (t + (inc : ℤ))
        (fun p hp => h p (List.mem_cons_of_mem _ hp)) e he

/-! ## Which event names each block can emit -/

lemma simFirstSession_names (u : User) (sid : ℕ) (t : ℤ) (fr : FirstSessionRand)
    {P : String → Prop} (h1 : P "signup") (h2 : P "email_verified")
    (h3 : P "onboarding_start") (h4 : P "onboarding_complete") :
    ∀ e ∈ (simFirstSession u sid t fr).2, P e.name := by
  simp only [simFirstSession]
  split_ifs <;> simp [mkEv] <;> tauto

lemma simActivation_names (u : User) (sid : ℕ) (t : ℤ) (act vm : Bool) (sr : SessionRand)
    {P : String → Prop} (h1 : P "create_first_project")
    (hp : ∀ p ∈ sr.productEvents, P p.1) (h2 : P "invite_teammate")
    (h3 : P "connect_integration") :
    ∀ e ∈ (simActivation u sid t act vm sr).evs, P e.name := by
  have hnoise := simNoise_names u.user_id sid sr.productEvents (t + (sr.actInc : ℤ)) hp
  simp only [simActivation]
  split_ifs <;> intro e he <;>
    simp only [List.mem_cons, List.mem_append, List.mem_singleton, List.not_mem_nil,
      or_false, false_or, or_assoc] at he <;>
    first
      | (rcases he with rfl | he | rfl <;>
          first
            | exact h1
            | exact h2
            | exact h3
            | exact hnoise e he)
      | (rcases he with rfl | he <;>
          first
            | exact h1
            | exact hnoise e he)

lemma runAttempts_names (u : User) (act : Bool) (sid : ℕ) {P : String → Prop}
    (h1 : P "checkout_start") (h2 : P "payment_failed") (h3 : P "subscription_created") :
    ∀ (l : List AttemptRand) (idx : ℕ) (t : ℤ) (sub : Bool) (sts : Option ℤ),
      ∀ e ∈ (runAttempts u act sid idx t sub sts l).evs, P e.name
  | [], idx, t, sub, sts => by simp [runAttempts]
  | ar :: rest, idx, t, sub, sts => by
    have hrest := runAttempts_names u act sid h1 h2 h3 rest (idx + 1)
      (t + (ar.coInc : ℤ) + (ar.failInc : ℤ)) sub sts
    simp only [runAttempts]
    split_ifs <;> intro e he <;>
      simp only [List.mem_cons, List.mem_singleton, List.not_mem_nil, or_false] at he <;>
      (rcases he with rfl | rfl | he <;>
        first
          | exact h1
          | exact h2
          | exact h3
          | exact hrest e he)

lemma simTrial_names (u : User) (sid : ℕ) (t : ℤ) (act ts sub : Bool) (sts : Option ℤ)
    (sr : SessionRand) {P : String → Prop} (h0 : P "trial_start") (h1 : P "checkout_start")
    (h2 : P "payment_failed") (h3 : P "subscription_created") :
    ∀ e ∈ (simTrial u sid t act ts sub sts sr).1.evs, P e.name := by
  have hatt := runAttempts_names u act sid h1 h2 h3 sr.attempts 0 (t + (sr.trialInc : ℤ)) sub sts
  simp only [simTrial]
  split_ifs <;> intro e he <;>
    simp only [List.mem_cons, List.not_mem_nil] at he
  · rcases he with rfl | he
    · exact h0
    · exact hatt e he

lemma simDashboard_names (u : User) (sid : ℕ) (t : ℤ) (act sub : Bool) (sr : SessionRand)
    {P : String → Prop} (h1 : P "dashboard_view") :
    ∀ e ∈ (simDashboard u sid t act sub sr).2, P e.name := by
  simp only [simDashboard]
  split_ifs <;> intro e he <;>
    simp only [List.mem_singleton, List.not_mem_nil] at he <;>
    (subst he
     exact h1)

lemma simSession_names (u : User) (s sid : ℕ) (sr : SessionRand) (st : SessionState)
    {P : String → Prop}
    (hbrowse : ∀ p ∈ sr.browse, P p.1) (hprod : ∀ p ∈ sr.productEvents, P p.1)
    (hfix : P "signup" ∧ P "email_verified" ∧ P "onboarding_start" ∧
      P "onboarding_complete" ∧ P "create_first_project" ∧ P "invite_teammate" ∧
      P "connect_integration" ∧ P "trial_start" ∧ P "checkout_start" ∧
      P "payment_failed" ∧ P "subscription_created" ∧ P "dashboard_view") :
    ∀ e ∈ (simSession u s sid sr st).1, P e.name := by
  obtain ⟨k1, k2, k3, k4, k5, k6, k7, k8, k9, k10, k11, k12⟩ := hfix
  have hn := simNoise_names u.user_id sid sr.browse (session_start u s sr) hbrowse
  have hf := simFirstSession_names u sid (simNoise u.user_id sid (session_start u s sr) sr.browse).1
    sr.first k1 k2 k3 k4
  simp only [simSession]
  intro e he
  rcases List.mem_append.1 he with he | he5
  rcases List.mem_append.1 he with he | he4
  rcases List.mem_append.1 he with he | he3
  rcases List.mem_append.1 he with he1 | he2
  · exact hn e he1
  · by_cases hs : s = 0
    · subst hs
      rw [if_pos rfl] at he2
      exact hf e he2
    · rw [if_neg hs] at he2
      exact absurd he2 (List.not_mem_nil e)
  · exact simActivation_names u sid _ st.activated st.value_moment sr k5 hprod k6 k7 e he3
  · exact simTrial_names u sid _ _ st.trial_started st.subscribed st.subscription_start_ts
      sr k8 k9 k10 k11 e he4
  · exact simDashboard_names u sid _ _ _ sr k12 e he5

/-! ## State tracking: how the subscription fields evolve -/

lemma filter_isNamed_nil {nm : String} {evs : List Event} (h : ∀ e ∈ evs, e.name ≠ nm) :
    evs.filter (isNamed nm) = [] := by
  rw [List.filter_eq_nil_iff]
  intro e he
  simp [isNamed, h e he]

lemma session_start_ge (u : User) (k : ℕ) (sr : SessionRand) :
    session_baseline u k ≤ session_start u k sr := by
  simp only [session_start, session_baseline]
  omega

lemma SubSpec.prepend {u : User} {sid : ℕ} {X : ℤ} {sub0 sub1 : Bool} {sts0 sts1 : Option ℤ}
    {evs1 evs2 : List Event} (h0 : evs1.filter (isNamed "subscription_created") = [])
    (h : SubSpec u sid X sub0 sub1 sts0 sts1 evs2) :
    SubSpec u sid X sub0 sub1 sts0 sts1 (evs1 ++ evs2) := by
  rcases h with ⟨ha, hb, hc⟩ | ⟨ha, hb, τ, hc, hd, he⟩
  · exact .inl ⟨ha, hb, by simp [List.filter_append, h0, hc]⟩
  · exact .inr ⟨ha, hb, τ, hc, hd, by simp [List.filter_append, h0, he]⟩

lemma SubSpec.append_nil {u : User} {sid : ℕ} {X : ℤ} {sub0 sub1 : Bool} {sts0 sts1 : Option ℤ}
    {evs1 evs2 : List Event} (h : SubSpec u sid X sub0 sub1 sts0 sts1 evs1)
    (h0 : evs2.filter (isNamed "subscription_created") = []) :
    SubSpec u sid X sub0 sub1 sts0 sts1 (evs1 ++ evs2) := by
  rcases h with ⟨ha, hb, hc⟩ | ⟨ha, hb, τ, hc, hd, he⟩
  · exact .inl ⟨ha, hb, by simp [List.filter_append, h0, hc]⟩
  · exact .inr ⟨ha, hb, τ, hc, hd, by simp [List.filter_append, h0, he]⟩

lemma SubSpec.relax {u : User} {sid : ℕ} {X X' : ℤ} {sub0 sub1 : Bool} {sts0 sts1 : Option ℤ}
    {evs : List Event} (h : SubSpec u sid X sub0 sub1 sts0 sts1 evs) (hX : X' ≤ X) :
    SubSpec u sid X' sub0 sub1 sts0 sts1 evs := by
  rcases h with ⟨ha, hb, hc⟩ | ⟨ha, hb, τ, hc, hd, he⟩
  · exact .inl ⟨ha, hb, hc⟩
  · exact .inr ⟨ha, hb, τ, hc, le_trans hX hd, he⟩

lemma SubSpec.toM {u : User} {sid : ℕ} {X X' : ℤ} {sub0 sub1 : Bool} {sts0 sts1 : Option ℤ}
    {evs : List Event} (h : SubSpec u sid X sub0 sub1 sts0 sts1 evs) (hX : X' ≤ X) :
    SubSpecM u X' sub0 sub1 sts0 sts1 evs := by
  rcases h with ⟨ha, hb, hc⟩ | ⟨ha, hb, τ, hc, hd, he⟩
  · exact .inl ⟨ha, hb, hc⟩
  · exact .inr ⟨ha, hb, τ, sid, hc, le_trans hX hd, he⟩

lemma SubSpecM.trans {u : User} {X : ℤ} {sub0 sub1 sub2 : Bool} {sts0 sts1 sts2 : Option ℤ}
    {evs1 evs2 : List Event} (h1 : SubSpecM u X sub0 sub1 sts0 sts1 evs1)
    (h2 : SubSpecM u X sub1 sub2 sts1 sts2 evs2) :
    SubSpecM u X sub0 sub2 sts0 sts2 (evs1 ++ evs2) := by
  rcases h1 with ⟨a1, b1, c1⟩ | ⟨a1, b1, τ1, sid1, c1, d1, e1⟩ <;>
    rcases h2 with ⟨a2, b2, c2⟩ | ⟨a2, b2, τ2, sid2, c2, d2, e2⟩
  · exact .inl ⟨a2.trans a1, b2.trans b1, by simp [List.filter_append, c1, c2]⟩
  · exact .inr ⟨a1 ▸ a2, b2, τ2, sid2, c2, d2, by simp [List.filter_append, c1, e2]⟩
  · exact .inr ⟨a1, a2.trans b1, τ1, sid1, b2.trans c1, d1, by simp [List.filter_append, e1, c2]⟩
  · exact absurd (b1.symm.trans a2) (by simp)

lemma runAttempts_state (u : User) (act : Bool) (sid : ℕ) :
    ∀ (l : List AttemptRand) (idx : ℕ) (t : ℤ) (sub : Bool) (sts : Option ℤ),
      SubSpec u sid t sub (runAttempts u act sid idx t sub sts l).subscribed
        sts (runAttempts u act sid idx t sub sts l).subscription_start_ts
        (runAttempts u act sid idx t sub sts l).evs
  | [], idx, t, sub, sts => by
    left
    simp [runAttempts]
  | ar :: rest, idx, t, sub, sts => by
    have hrest := runAttempts_state u act sid rest (idx + 1)
      (t + (ar.coInc : ℤ) + (ar.failInc : ℤ)) sub sts
    simp only [runAttempts]
    split_ifs with hfail habort hsub
    · exact .inl ⟨rfl, rfl, by simp [isNamed, mkEv, mkEvA, List.filter]⟩
    · rcases hrest with ⟨ha, hb, hc⟩ | ⟨ha, hb, τ, hc, hd, he⟩
      · exact .inl ⟨ha, hb, by simp [isNamed, mkEv, mkEvA, List.filter, hc]⟩
      · exact .inr ⟨ha, hb, τ, hc, by omega, by simp [isNamed, mkEv, mkEvA, List.filter, he]⟩
    · exact .inr ⟨hsub.1, rfl, t + (ar.coInc : ℤ), rfl, by omega,
        by simp [isNamed, mkEv, mkEvA, List.filter]⟩
    · exact .inl ⟨rfl, rfl, by simp [isNamed, mkEv, mkEvA, List.filter]⟩

lemma simTrial_state (u : User) (sid : ℕ) (t : ℤ) (act ts sub : Bool) (sts : Option ℤ)
    (sr : SessionRand) :
    SubSpec u sid t sub (simTrial u sid t act ts sub sts sr).1.subscribed
      sts (simTrial u sid t act ts sub sts sr).1.subscription_start_ts
      (simTrial u sid t act ts sub sts sr).1.evs := by
  simp only [simTrial]
  split_ifs with htrial
  · rcases runAttempts_state u act sid sr.attempts 0 (t + (sr.trialInc : ℤ)) sub sts with
      ⟨ha, hb, hc⟩ | ⟨ha, hb, τ, hc, hd, he⟩
    · exact .inl ⟨ha, hb, by simp [isNamed, mkEv, List.filter, hc]⟩
    · exact .inr ⟨ha, hb, τ, hc, by omega, by simp [isNamed, mkEv, List.filter, he]⟩
  · exact .inl ⟨rfl, rfl, rfl⟩

lemma simSession_state (u : User) (s sid : ℕ) (sr : SessionRand) (st : SessionState)
    (hwf : sr.WF) :
    SubSpec u sid (session_start u s sr) st.subscribed (simSession u s sid sr st).2.subscribed
      st.subscription_start_ts (simSession u s sid sr st).2.subscription_start_ts
      (simSession u s sid sr st).1 := by
  have hwf0 := hwf
  obtain ⟨hg, hj, hb1, hb2, hb3, hfw, ha1, ha2, hp1, hp2, hp3, hv1, hv2, ht1, ht2,
    hat1, hat2, hat3, hd1, hd2⟩ := hwf0
  have hn1 : (simNoise u.user_id sid (session_start u s sr) sr.browse).2.filter
      (isNamed "subscription_created") = [] := by
    refine filter_isNamed_nil fun e he => ?_
    have hv := simNoise_names u.user_id sid sr.browse (session_start u s sr)
      (fun p hp => (hb3 p hp).1) e he
    intro hx
    rw [hx] at hv
    simp [BROWSING_EVENTS] at hv
  have hn2 : ∀ tF : ℤ, (simFirstSession u sid tF sr.first).2.filter
      (isNamed "subscription_created") = [] :=
    fun tF => filter_isNamed_nil (simFirstSession_names u sid tF sr.first
      (P := fun nm => nm ≠ "subscription_created")
      (by decide) (by decide) (by decide) (by decide))
  have hn3 : ∀ tF : ℤ, (simActivation u sid tF st.activated st.value_moment sr).evs.filter
      (isNamed "subscription_created") = [] := by
    intro tF
    refine filter_isNamed_nil (simActivation_names u sid tF st.activated st.value_moment sr
      (P := fun nm => nm ≠ "subscription_created") (by decide) ?_ (by decide) (by decide))
    intro p hp
    have hv := (hp3 p hp).1
    intro hx
    rw [hx] at hv
    simp [PRODUCT_EVENTS] at hv
  have hn5 : ∀ (tF : ℤ) (a b : Bool), (simDashboard u sid tF a b sr).2.filter
      (isNamed "subscription_created") = [] :=
    fun tF a b => filter_isNamed_nil (simDashboard_names u sid tF a b sr
      (P := fun nm => nm ≠ "subscription_created") (by decide))
  have hcn : ∀ tF : ℤ, session_start u s sr ≤ tF →
      session_start u s sr ≤ (simActivation u sid tF st.activated st.value_moment sr).t :=
    fun tF h => le_trans h (simActivation_emits u sid tF st.activated st.value_moment sr hwf).1
  simp only [simSession]
  refine SubSpec.append_nil (SubSpec.prepend ?_ ?_) (hn5 _ _ _)
  · by_cases hs : s = 0
    · rw [if_pos hs]
      simp [List.filter_append, hn1, hn2 _, hn3 _]
    · rw [if_neg hs]
      simp [List.filter_append, hn1, hn3 _]
  · refine SubSpec.relax (simTrial_state u sid _ _ st.trial_started st.subscribed
      st.subscription_start_ts sr) ?_
    by_cases hs : s = 0
    · rw [if_pos hs]
      exact hcn _ (le_trans (simNoise_clock u.user_id sid sr.browse _)
        (simFirstSession_emits u sid _ sr.first hfw).1)
    · rw [if_neg hs]
      exact hcn _ (simNoise_clock u.user_id sid sr.browse _)

lemma simSessions_state (u : User) :
    ∀ (l : List SessionRand) (s : ℕ) (st : SessionState), (∀ sr ∈ l, sr.WF) →
      SubSpecM u u.signup_ts st.subscribed (simSessions u s st l).2.subscribed
        st.subscription_start_ts (simSessions u s st l).2.subscription_start_ts
        (simSessions u s st l).1
  | [], s, st, _ => by
    left
    simp [simSessions]
  | sr :: rest, s, st, h => by
    have hsess := simSession_state u s s sr st (h sr (List.mem_cons_self _ _))
    have hrest := simSessions_state u rest (s + 1) (simSession u s s sr st).2
      (fun x hx => h x (List.mem_cons_of_mem _ hx))
    simp only [simSessions]
    exact (hsess.toM (session_start_ge u s sr)).trans hrest

lemma simSessions_bounds (u : User) :
    ∀ (l : List SessionRand) (s : ℕ) (st : SessionState), (∀ sr ∈ l, sr.WF) →
      ∀ e ∈ (simSessions u s st l).1,
        u.signup_ts ≤ e.event_ts ∧ s ≤ e.session_id ∧ e.session_id < s + l.length
  | [], s, st, _ => by simp [simSessions]
  | sr :: rest, s, st, h => by
    obtain ⟨Y, hY⟩ := simSession_emits u s s sr st (h sr (List.mem_cons_self _ _))
    have hrest := simSessions_bounds u rest (s + 1) (simSession u s s sr st).2
      (fun x hx => h x (List.mem_cons_of_mem _ hx))
    intro e he
    simp only [simSessions] at he
    rcases List.mem_append.1 he with he | he
    · obtain ⟨hsid, hts, _⟩ := hY.2.1 e he
      refine ⟨le_trans (le_trans (session_start_ge u s sr) (le_refl _)) hts, ?_, ?_⟩
      · omega
      · simp only [List.length_cons]
        omega
    · obtain ⟨h1, h2, h3⟩ := hrest e he
      refine ⟨h1, by omega, ?_⟩
      simp only [List.length_cons]
      omega

lemma filter_sid_all {j : ℕ} {evs : List Event} (h : ∀ e ∈ evs, e.session_id = j) (sid : ℕ) :
    evs.filter (fun e => e.session_id == sid) = if j = sid then evs else [] := by
  split_ifs with hj
  · subst hj
    refine List.filter_eq_self.mpr fun e he => ?_
    simp [h e he]
  · refine List.filter_eq_nil_iff.mpr fun e he => ?_
    simp [h e he, hj]

lemma simSessions_chain (u : User) :
    ∀ (l : List SessionRand) (s : ℕ) (st : SessionState), (∀ sr ∈ l, sr.WF) → ∀ sid,
      ((simSessions u s st l).1.filter (fun e => e.session_id == sid)).Chain'
        (fun a b => a.event_ts < b.event_ts)
  | [], s, st, _, sid => by simp [simSessions]
  | sr :: rest, s, st, h, sid => by
    obtain ⟨Y, hY⟩ := simSession_emits u s s sr st (h sr (List.mem_cons_self _ _))
    have hrest := simSessions_chain u rest (s + 1) (simSession u s s sr st).2
      (fun x hx => h x (List.mem_cons_of_mem _ hx)) sid
    have hall : ∀ e ∈ (simSession u s s sr st).1, e.session_id = s :=
      fun e he => (hY.2.1 e he).1
    have hrestn : ∀ e ∈ (simSessions u (s + 1) (simSession u s s sr st).2 rest).1,
        s + 1 ≤ e.session_id :=
      fun e he => (simSessions_bounds u rest (s + 1) _
        (fun x hx => h x (List.mem_cons_of_mem _ hx)) e he).2.1
    simp only [simSessions]
    rw [List.filter_append, filter_sid_all hall sid]
    by_cases hj : s = sid
    · subst hj
      have hnil : (simSessions u (s + 1) (simSession u s s sr st).2 rest).1.filter
          (fun e => e.session_id == s) = [] := by
        refine List.filter_eq_nil_iff.mpr fun e he => ?_
        have := hrestn e he
        simp only [beq_iff_eq]
        omega
      rw [if_pos rfl, hnil, List.append_nil]
      exact hY.2.2
    · rw [if_neg hj, List.nil_append]
      exact hrest

/-! ## The post-journey block -/

lemma chain_of_pairwise_filter {evs : List Event}
    (h : evs.Pairwise (fun a b => a.session_id ≠ b.session_id)) (sid : ℕ)
    {R : Event → Event → Prop} :
    (evs.filter (fun e => e.session_id == sid)).Chain' R := by
  induction evs with
  | nil => simp
  | cons a l ih =>
    rcases List.pairwise_cons.1 h with ⟨ha, hl⟩
    rw [List.filter_cons]
    split_ifs with hs
    · have hnil : l.filter (fun e => e.session_id == sid) = [] := by
        refine List.filter_eq_nil_iff.mpr fun e he => ?_
        have := ha e he
        simp only [beq_iff_eq] at hs ⊢
        omega
      rw [hnil]
      simp
    · exact ih hl

lemma simPost_bounds (u : User) (st : SessionState) (pr : PostRand) (b : ℕ)
    (hinv : ∀ τ, st.subscription_start_ts = some τ → u.signup_ts ≤ τ) :
    ∀ e ∈ (simPost u st pr b).1, u.signup_ts ≤ e.event_ts ∧ b ≤ e.session_id := by
  obtain ⟨a, v, tr, sub, sts⟩ := st
  have hinv' : ∀ τ, sts = some τ → u.signup_ts ≤ τ := hinv
  cases sub <;> cases sts <;>
    simp only [simPost, churn_ts_of] <;>
    split_ifs <;>
    simp [mkEv] <;>
    first
      | omega
      | (have hval := hinv' _ rfl
         omega)

lemma simPost_pairwise (u : User) (st : SessionState) (pr : PostRand) (b : ℕ) :
    (simPost u st pr b).1.Pairwise (fun x y => x.session_id ≠ y.session_id) := by
  obtain ⟨a, v, tr, sub, sts⟩ := st
  cases sub <;> cases sts <;>
    simp only [simPost, churn_ts_of] <;>
    split_ifs <;>
    simp [mkEv, List.pairwise_cons]

lemma simPost_subs (u : User) (st : SessionState) (pr : PostRand) (b : ℕ) :
    ((simPost u st pr b).2 = [] ∧ (st.subscribed = false ∨ st.subscription_start_ts = none))
    ∨ (∃ τ, st.subscribed = true ∧ st.subscription_start_ts = some τ ∧
        (simPost u st pr b).2 = [⟨u.user_id, (pick_plan u.company_size).1,
          ((pick_plan u.company_size).2 : ℚ), τ, churn_ts_of (pick_plan u.company_size).1 τ pr⟩]) := by
  obtain ⟨a, v, tr, sub, sts⟩ := st
  cases sub <;> cases sts
  · left
    refine ⟨?_, .inl rfl⟩
    simp only [simPost]
    split_ifs <;> rfl
  · left
    refine ⟨?_, .inl rfl⟩
    simp only [simPost]
    split_ifs <;> rfl
  · left
    refine ⟨?_, .inr rfl⟩
    simp only [simPost]
    split_ifs <;> rfl
  · right
    exact ⟨_, rfl, rfl, rfl⟩

lemma simPost_subc_filter (u : User) (st : SessionState) (pr : PostRand) (b : ℕ) :
    (simPost u st pr b).1.filter (isNamed "subscription_created") = [] := by
  obtain ⟨a, v, tr, sub, sts⟩ := st
  cases sub <;> cases sts <;>
    simp only [simPost, churn_ts_of] <;>
    split_ifs <;>
    simp [isNamed, mkEv, List.filter]

lemma simPost_cancel_map (u : User) (st : SessionState) (pr : PostRand) (b : ℕ) (τ : ℤ)
    (hsub : st.subscribed = true) (hsts : st.subscription_start_ts = some τ) :
    ((simPost u st pr b).1.filter (isNamed "cancel_subscription")).map Event.event_ts =
      (churn_ts_of (pick_plan u.company_size).1 τ pr).toList := by
  obtain ⟨a, v, tr, sub, sts⟩ := st
  cases sub <;> cases sts
  · exact absurd hsub (by simp)
  · exact absurd hsub (by simp)
  · exact absurd hsts (by simp)
  · obtain rfl := Option.some.inj hsts
    simp only [simPost, churn_ts_of]
    split_ifs <;> simp [isNamed, mkEv, List.filter]

lemma simSessions_no_cancel (u : User) :
    ∀ (l : List SessionRand) (s : ℕ) (st : SessionState), (∀ sr ∈ l, sr.WF) →
      ∀ e ∈ (simSessions u s st l).1, e.name ≠ "cancel_subscription"
  | [], s, st, _ => by simp [simSessions]
  | sr :: rest, s, st, h => by
    obtain ⟨hg, hj, hb1, hb2, hb3, hfw, ha1, ha2, hp1, hp2, hp3, hv1, hv2, ht1, ht2,
      hat1, hat2, hat3, hd1, hd2⟩ := h sr (List.mem_cons_self _ _)
    have hrest := simSessions_no_cancel u rest (s + 1) (simSession u s s sr st).2
      (fun x hx => h x (List.mem_cons_of_mem _ hx))
    intro e he
    simp only [simSessions] at he
    rcases List.mem_append.1 he with he | he
    · refine simSession_names u s s sr st (P := fun nm => nm ≠ "cancel_subscription")
        ?_ ?_ ?_ e he
      · intro p hp
        have hv := (hb3 p hp).1
        intro hx
        rw [hx] at hv
        simp [BROWSING_EVENTS] at hv
      · intro p hp
        have hv := (hp3 p hp).1
        intro hx
        rw [hx] at hv
        simp [PRODUCT_EVENTS] at hv
      · refine ⟨?_, ?_, ?_, ?_, ?_, ?_, ?_, ?_, ?_, ?_, ?_, ?_⟩ <;> decide
    · exact hrest e he

/-! ## Putting a whole user run together -/

lemma simUser_evs_def (u : User) (ur : UserRand) :
    (simUser u ur).1 = (simSessions u 0 initState ur.sessions).1 ++
      (simPost u (simSessions u 0 initState ur.sessions).2 ur.post ur.sessions.length).1 :=
  rfl

lemma simUser_subs_def (u : User) (ur : UserRand) :
    (simUser u ur).2 =
      (simPost u (simSessions u 0 initState ur.sessions).2 ur.post ur.sessions.length).2 :=
  rfl

lemma simUser_hinv (u : User) (ur : UserRand) (h3 : ∀ sr ∈ ur.sessions, sr.WF) :
    ∀ τ, (simSessions u 0 initState ur.sessions).2.subscription_start_ts = some τ →
      u.signup_ts ≤ τ := by
  intro τ hτ
  rcases simSessions_state u ur.sessions 0 initState h3 with
    ⟨_, hb, _⟩ | ⟨_, _, τ', sid, hc, hd, _⟩
  · rw [hτ] at hb
    exact absurd hb.symm (by simp [initState])
  · rw [hc] at hτ
    obtain rfl := Option.some.inj hτ
    exact hd

lemma retention_guard_none (τ k : ℤ) : retention_guard τ none k = true :=
  rfl

lemma retention_guard_days (τ : ℤ) (d : ℕ) (k : ℤ) (hk : k ≤ (d : ℤ)) :
    retention_guard τ (some (τ + 1440 * (d : ℤ))) k = true := by
  simp only [retention_guard, add_sub_cancel_left]
  rw [Int.fdiv_eq_ediv _ (by positivity), Int.mul_ediv_cancel_left _ (by norm_num)]
  simpa using hk

lemma runAttempts_attempts (u : User) (act : Bool) (sid : ℕ) :
    ∀ (l : List AttemptRand) (idx : ℕ) (t : ℤ) (sub : Bool) (sts : Option ℤ),
      ∃ k, k ≤ l.length ∧ (l ≠ [] → 1 ≤ k) ∧
        ((runAttempts u act sid idx t sub sts l).evs.filter (isNamed "checkout_start")).map
          Event.attempt = (List.range k).map (fun i => some (idx + i + 1)) ∧
        ∀ j (hj : j < l.length), j < k →
          payment_failure_probability u.device u.country ≤ (l.get ⟨j, hj⟩).failRoll →
            j + 1 = k
  | [], idx, t, sub, sts => by
    refine ⟨0, le_refl _, by simp, ?_, ?_⟩
    · simp [runAttempts]
    · intro j hj
      simp at hj
  | ar :: rest, idx, t, sub, sts => by
    obtain ⟨k1, hk1, hk2, hk3, hk4⟩ := runAttempts_attempts u act sid rest (idx + 1)
      (t + (ar.coInc : ℤ) + (ar.failInc : ℤ)) sub sts
    simp only [runAttempts]
    split_ifs with hfail habort hsub
    · refine ⟨1, by simp, fun _ => le_refl _, ?_, ?_⟩
      · simp [isNamed, mkEv, mkEvA, List.filter, List.range_succ_eq_map]
      · intro j hj hjk hge
        interval_cases j
        exact absurd hge (by exact not_le.mpr hfail)
    · refine ⟨k1 + 1, by simpa using hk1, fun _ => by omega, ?_, ?_⟩
      · rw [show ((⟨_, mkEvA u.user_id t sid "checkout_start" (idx + 1) ::
          mkEv u.user_id (t + (ar.coInc : ℤ)) sid "payment_failed" ::
          (runAttempts u act sid (idx + 1) (t + (ar.coInc : ℤ) + (ar.failInc : ℤ))
            sub sts rest).evs, _, _⟩ : TrialOut).evs = _) from rfl]
        rw [List.filter_cons, List.filter_cons]
        simp only [isNamed, mkEvA, mkEv, beq_iff_eq, reduceCtorEq]
        rw [if_pos (by simp), if_neg (by simp)]
        rw [List.map_cons, hk3, List.range_succ_eq_map, List.map_cons, List.map_map]
        refine congrArg _ ?_
        refine List.map_congr_left fun a _ => ?_
        simp only [Function.comp_apply]
        refine congrArg _ (by omega)
      · intro j hj hjk hge
        cases j with
        | zero => exact absurd hge (not_le.mpr hfail)
        | succ n =>
          have hn : n < rest.length := by
            simpa using hj
          have := hk4 n hn (by omega) (by simpa using hge)
          omega
    · refine ⟨1, by simp, fun _ => le_refl _, ?_, ?_⟩
      · simp [isNamed, mkEv, mkEvA, List.filter, List.range_succ_eq_map]
      · intro j hj hjk hge
        interval_cases j
        rfl
    · refine ⟨1, by simp, fun _ => le_refl _, ?_, ?_⟩
      · simp [isNamed, mkEv, mkEvA, List.filter, List.range_succ_eq_map]
      · intro j hj hjk hge
        interval_cases j
        rfl

/-! ## Small facts about clamping -/

lemma clamp01_nonneg (x : ℚ) : 0 ≤ clamp01 x :=
  le_max_left 0 _

lemma clamp01_le_one (x : ℚ) : clamp01 x ≤ 1 :=
  max_le (by norm_num) (min_le_left 1 x)

set_option maxHeartbeats 1000000 in
lemma activation_probability_eq_spec (c : Channel) (d : Device) (p : Persona)
    (cs : CompanySize) :
    activation_probability c d p cs = activation_probability_spec c d p cs := by
  cases c <;> cases d <;> cases p <;> cases cs <;>
    · simp only [activation_probability, activation_probability_spec,
        activation_base_spec, clamp01, max_def, min_def, reduceCtorEq, reduceIte]
      norm_num

/-! ## The claims -/

/-- C1: for every user, each session start time is at or after the session
baseline of the previous session, the baseline never decreases from one
session to the next, and the baseline never precedes the user's signup time
(the source sets the baseline `t0` to the signup timestamp once, before the
session loop, and never moves it). -/
theorem claim_c1 (u : User) (ur : UserRand) (k : ℕ) (h : k + 1 < ur.sessions.length) :
    session_baseline u k ≤ session_start u (k + 1) (ur.sessions.get ⟨k + 1, h⟩) ∧
    session_baseline u k ≤ session_baseline u (k + 1) ∧
    u.signup_ts ≤ session_baseline u k := by
  exact ⟨session_start_ge u (k + 1) (ur.sessions.get ⟨k + 1, h⟩), le_refl _, le_refl _⟩

/-- C2: for every user and well-formed randomness, every event generated for
that user — journey events, the churn event and the retention markers — has a
timestamp at or after the user's signup timestamp. -/
theorem claim_c2 (u : User) (ur : UserRand) (hwf : ur.WF) :
    ∀ e ∈ (simUser u ur).1, u.signup_ts ≤ e.event_ts := by
  obtain ⟨h1, h2, h3, h4⟩ := hwf
  intro e he
  rw [simUser_evs_def] at he
  rcases List.mem_append.1 he with he | he
  · exact (simSessions_bounds u ur.sessions 0 initState h3 e he).1
  · exact (simPost_bounds u _ ur.post _ (simUser_hinv u ur h3) e he).1

/-- C3: for every session identifier, the events of a run sharing that
identifier are non-decreasing in timestamp in emission order, and in fact
strictly increasing (the per-session clock advances by positive increments
between consecutive events of a session). -/
theorem claim_c3 (u : User) (ur : UserRand) (hwf : ur.WF) (sid : ℕ) :
    ((simUser u ur).1.filter (fun e => e.session_id == sid)).Chain'
      (fun a b => a.event_ts ≤ b.event_ts) ∧
    ((simUser u ur).1.filter (fun e => e.session_id == sid)).Chain'
      (fun a b => a.event_ts < b.event_ts) := by
  obtain ⟨h1, h2, h3, h4⟩ := hwf
  have hlt : ((simUser u ur).1.filter (fun e => e.session_id == sid)).Chain'
      (fun a b => a.event_ts < b.event_ts) := by
    rw [simUser_evs_def, List.filter_append]
    by_cases hsid : sid < ur.sessions.length
    · have hpost : (simPost u (simSessions u 0 initState ur.sessions).2 ur.post
          ur.sessions.length).1.filter (fun e => e.session_id == sid) = [] := by
        refine List.filter_eq_nil_iff.mpr fun e he => ?_
        have := (simPost_bounds u _ ur.post _ (simUser_hinv u ur h3) e he).2
        simp only [beq_iff_eq]
        omega
      rw [hpost, List.append_nil]
      exact simSessions_chain u ur.sessions 0 initState h3 sid
    · have hsess : (simSessions u 0 initState ur.sessions).1.filter
          (fun e => e.session_id == sid) = [] := by
        refine List.filter_eq_nil_iff.mpr fun e he => ?_
        have := (simSessions_bounds u ur.sessions 0 initState h3 e he).2.2
        simp only [beq_iff_eq]
        omega
      rw [hsess, List.nil_append]
      exact chain_of_pairwise_filter (simPost_pairwise u _ ur.post _) sid
  exact ⟨hlt.imp fun a b => le_of_lt, hlt⟩

/-- C4: a subscription record is produced iff the journey ends with
`subscribed = true`, and at most one subscription record is produced per
user. -/
theorem claim_c4 (u : User) (ur : UserRand) (hwf : ur.WF) :
    ((simUser u ur).2 ≠ [] ↔ (simSessions u 0 initState ur.sessions).2.subscribed = true) ∧
    (simUser u ur).2.length ≤ 1 := by
  obtain ⟨h1, h2, h3, h4⟩ := hwf
  rcases simPost_subs u (simSessions u 0 initState ur.sessions).2 ur.post
      ur.sessions.length with ⟨hnil, hor⟩ | ⟨τ, hsub, hsts, heq⟩
  · rw [simUser_subs_def, hnil]
    refine ⟨?_, by simp⟩
    simp only [ne_eq, not_true_eq_false, false_iff]
    rcases hor with hor | hor
    · simp [hor]
    · intro hx
      rcases simSessions_state u ur.sessions 0 initState h3 with
        ⟨ha, hb, _⟩ | ⟨_, _, τ, sid, hc, _, _⟩
      · rw [hx] at ha
        exact absurd ha.symm (by simp [initState])
      · rw [hor] at hc
        exact absurd hc (by simp)
  · rw [simUser_subs_def, heq]
    exact ⟨by simp [hsub], by simp⟩

/-- C5: every subscription record with a non-null churn timestamp churns
strictly after the subscription start, by between 30 and 75 days (in minutes:
43200 to 108000) inclusive. -/
theorem claim_c5 (u : User) (ur : UserRand) (hpw : ur.post.WF) :
    ∀ sub ∈ (simUser u ur).2, ∀ cts, sub.churn_ts = some cts →
      sub.subscription_start_ts < cts ∧
      30 * 1440 ≤ cts - sub.subscription_start_ts ∧
      cts - sub.subscription_start_ts ≤ 75 * 1440 := by
  obtain ⟨hd1, hd2, hd3⟩ := hpw
  intro sub hsub cts hcts
  rw [simUser_subs_def] at hsub
  rcases simPost_subs u (simSessions u 0 initState ur.sessions).2 ur.post
      ur.sessions.length with ⟨hnil, _⟩ | ⟨τ, _, _, heq⟩
  · rw [hnil] at hsub
    exact absurd hsub (List.not_mem_nil sub)
  · rw [heq, List.mem_singleton] at hsub
    subst hsub
    simp only [churn_ts_of] at hcts
    split_ifs at hcts
    obtain rfl := Option.some.inj hcts
    refine ⟨?_, ?_, ?_⟩ <;>
      · dsimp only
        omega

/-- C6: every subscription record's plan tier and monthly price are the
deterministic function of company size given by `pick_plan` — solo maps to
starter at 29, 2-10 and 11-50 map to pro at 79, 51-200 maps to business at
199 — and the record's `mrr` always equals the tier's fixed price. -/
theorem claim_c6 (u : User) (ur : UserRand) :
    ∀ sub ∈ (simUser u ur).2,
      sub.plan = (pick_plan u.company_size).1 ∧
      sub.mrr = ((pick_plan u.company_size).2 : ℚ) ∧
      (u.company_size = .solo → sub.plan = "starter" ∧ sub.mrr = 29) ∧
      (u.company_size = .s2_10 ∨ u.company_size = .s11_50 →
        sub.plan = "pro" ∧ sub.mrr = 79) ∧
      (u.company_size = .s51_200 → sub.plan = "business" ∧ sub.mrr = 199) := by
  intro sub hsub
  rw [simUser_subs_def] at hsub
  rcases simPost_subs u (simSessions u 0 initState ur.sessions).2 ur.post
      ur.sessions.length with ⟨hnil, _⟩ | ⟨τ, _, _, heq⟩
  · rw [hnil] at hsub
    exact absurd hsub (List.not_mem_nil sub)
  · rw [heq, List.mem_singleton] at hsub
    subst hsub
    refine ⟨rfl, rfl, ?_, ?_, ?_⟩
    · intro hcs
      rw [hcs]
      exact ⟨rfl, by simp [pick_plan]⟩
    · intro hcs
      rcases hcs with hcs | hcs <;> rw [hcs] <;>
        exact ⟨by simp [pick_plan], by simp [pick_plan]⟩
    · intro hcs
      rw [hcs]
      exact ⟨by simp [pick_plan], by simp [pick_plan]⟩

/-- C7: the activation probability is exactly the channel base value
(organic 0.52, paid_search 0.42, paid_social 0.28, partner 0.38,
referral 0.58) adjusted by −0.05 for mobile, +0.03 for maker or agency,
+0.01 for analyst, −0.02 for the 51-200 bracket, clamped to [0, 1]. -/
theorem claim_c7 (c : Channel) (d : Device) (p : Persona) (cs : CompanySize) :
    activation_probability c d p cs = activation_probability_spec c d p cs ∧
    0 ≤ activation_probability c d p cs ∧ activation_probability c d p cs ≤ 1 := by
  refine ⟨activation_probability_eq_spec c d p cs, ?_, ?_⟩ <;>
    simp only [activation_probability] <;>
    first
      | exact clamp01_nonneg _
      | exact clamp01_le_one _

/-- C8: within one trial's checkout attempt sequence, the `attempt` property
of the emitted `checkout_start` events runs 1, 2, …, k for some k between 1
and the sampled attempt count, and the attempt loop always terminates
immediately after a non-failed attempt (a processed attempt whose failure
roll misses is the last one). -/
theorem claim_c8 (u : User) (act : Bool) (sid : ℕ) (t : ℤ) (sub : Bool) (sts : Option ℤ)
    (l : List AttemptRand) (hl : l ≠ []) :
    ∃ k, 1 ≤ k ∧ k ≤ l.length ∧
      ((runAttempts u act sid 0 t sub sts l).evs.filter (isNamed "checkout_start")).map
        Event.attempt = (List.range k).map (fun i => some (i + 1)) ∧
      ∀ j (hj : j < l.length), j < k →
        payment_failure_probability u.device u.country ≤ (l.get ⟨j, hj⟩).failRoll →
          j + 1 = k := by
  obtain ⟨k, hk1, hk2, hk3, hk4⟩ := runAttempts_attempts u act sid l 0 t sub sts
  refine ⟨k, hk2 hl, hk1, ?_, hk4⟩
  rw [hk3]
  exact List.map_congr_left fun a _ => by simp

/-- C9: for every subscription record, the run contains exactly one
`subscription_created` event and its timestamp equals the record's
`subscription_start_ts`; and the run's `cancel_subscription` events are
exactly one at the record's churn timestamp when churn is set, none
otherwise. -/
theorem claim_c9 (u : User) (ur : UserRand) (hwf : ur.WF) :
    ∀ sub ∈ (simUser u ur).2,
      ((simUser u ur).1.filter (isNamed "subscription_created")).map Event.event_ts =
        [sub.subscription_start_ts] ∧
      ((simUser u ur).1.filter (isNamed "cancel_subscription")).map Event.event_ts =
        sub.churn_ts.toList := by
  have hwf0 := hwf
  obtain ⟨h1, h2, h3, h4⟩ := hwf0
  intro sub hsub
  rw [simUser_subs_def] at hsub
  rcases simPost_subs u (simSessions u 0 initState ur.sessions).2 ur.post
      ur.sessions.length with ⟨hnil, _⟩ | ⟨τ, hsubT, hstsT, heq⟩
  · rw [hnil] at hsub
    exact absurd hsub (List.not_mem_nil sub)
  · rw [heq, List.mem_singleton] at hsub
    subst hsub
    constructor
    · rw [simUser_evs_def, List.filter_append, simPost_subc_filter, List.append_nil]
      rcases simSessions_state u ur.sessions 0 initState h3 with
        ⟨ha, hb, _⟩ | ⟨_, _, τ2, sid, hc, _, he⟩
      · rw [hsubT] at ha
        exact absurd ha.symm (by simp [initState])
      · rw [hstsT] at hc
        obtain rfl := Option.some.inj hc
        rw [he]
        simp [mkEv]
    · rw [simUser_evs_def, List.filter_append]
      rw [filter_isNamed_nil (simSessions_no_cancel u ur.sessions 0 initState h3),
        List.nil_append]
      exact simPost_cancel_map u _ ur.post _ τ hsubT hstsT

/-- C10: for a subscriber, the day-7 and day-30 retention-marker guards are
always satisfied, because any churn timestamp lies at least 30 whole days
after the subscription start; consequently `active_day_7` is emitted exactly
when the 0.60 roll hits and `active_day_30` exactly when the 0.45 roll hits,
regardless of the churn outcome. -/
theorem claim_c10 (u : User) (st : SessionState) (pr : PostRand) (b : ℕ) (τ : ℤ)
    (hsub : st.subscribed = true) (hsts : st.subscription_start_ts = some τ)
    (hd1 : 30 ≤ pr.churnDays) (hd2 : pr.churnDays ≤ 75) :
    retention_guard τ (churn_ts_of (pick_plan u.company_size).1 τ pr) 7 = true ∧
    retention_guard τ (churn_ts_of (pick_plan u.company_size).1 τ pr) 30 = true ∧
    ((∃ e ∈ (simPost u st pr b).1, e.name = "active_day_7") ↔ pr.a7Roll < 0.60) ∧
    ((∃ e ∈ (simPost u st pr b).1, e.name = "active_day_30") ↔ pr.a30Roll < 0.45) := by
  have hg7 : retention_guard τ (some (τ + 1440 * (pr.churnDays : ℤ))) 7 = true :=
    retention_guard_days τ pr.churnDays 7 (by omega)
  have hg30 : retention_guard τ (some (τ + 1440 * (pr.churnDays : ℤ))) 30 = true :=
    retention_guard_days τ pr.churnDays 30 (by omega)
  have hguards : retention_guard τ (churn_ts_of (pick_plan u.company_size).1 τ pr) 7 = true ∧
      retention_guard τ (churn_ts_of (pick_plan u.company_size).1 τ pr) 30 = true := by
    simp only [churn_ts_of]
    split_ifs
    · exact ⟨hg7, hg30⟩
    · exact ⟨retention_guard_none τ 7, retention_guard_none τ 30⟩
  refine ⟨hguards.1, hguards.2, ?_, ?_⟩ <;>
    · obtain ⟨a, v, tr, sub, sts⟩ := st
      cases sub <;> cases sts
      · exact absurd hsub (by simp)
      · exact absurd hsub (by simp)
      · exact absurd hsts (by simp)
      · obtain rfl := Option.some.inj hsts
        simp only [simPost, churn_ts_of]
        split_ifs with hc hr1 hr2 hr1 hr2 <;>
          simp_all [mkEv, isNamed, hg7, hg30, retention_guard_none]

/-! ## Concrete witnesses for the claims with hypotheses -/

theorem claim_c1_witness :
    0 + 1 < ur1.sessions.length ∧
    (session_baseline u0 0 ≤ session_start u0 1 (ur1.sessions.get ⟨1, by decide⟩) ∧
      session_baseline u0 0 ≤ session_baseline u0 1 ∧
      u0.signup_ts ≤ session_baseline u0 0) :=
  ⟨by decide, claim_c1 u0 ur1 0 (by decide)⟩

theorem claim_c2_witness :
    ur0.WF ∧ u0.signup_ts ≤ (mkEv 1 1010 0 "landing_page_view").event_ts :=
  ⟨by decide, claim_c2 u0 ur0 (by decide) (mkEv 1 1010 0 "landing_page_view")
    (by simp [eval0_user, evList0, postList0])⟩

theorem claim_c3_witness :
    ur0.WF ∧
    (((simUser u0 ur0).1.filter (fun e => e.session_id == 0)).Chain'
        (fun a b => a.event_ts ≤ b.event_ts) ∧
      ((simUser u0 ur0).1.filter (fun e => e.session_id == 0)).Chain'
        (fun a b => a.event_ts < b.event_ts)) :=
  ⟨by decide, claim_c3 u0 ur0 (by decide) 0⟩

theorem claim_c4_witness :
    ur0.WF ∧
    (((simUser u0 ur0).2 ≠ [] ↔
        (simSessions u0 0 initState ur0.sessions).2.subscribed = true) ∧
      (simUser u0 ur0).2.length ≤ 1) :=
  ⟨by decide, claim_c4 u0 ur0 (by decide)⟩

theorem claim_c5_witness :
    (ur0.post.WF ∧ sub0 ∈ (simUser u0 ur0).2 ∧ sub0.churn_ts = some 44254) ∧
    (sub0.subscription_start_ts < 44254 ∧
      30 * 1440 ≤ 44254 - sub0.subscription_start_ts ∧
      44254 - sub0.subscription_start_ts ≤ 75 * 1440) :=
  ⟨⟨by decide, by simp [eval0_user], rfl⟩,
    claim_c5 u0 ur0 (by decide) sub0 (by simp [eval0_user]) 44254 rfl⟩

theorem claim_c6_witness :
    sub0 ∈ (simUser u0 ur0).2 ∧
    (sub0.plan = (pick_plan u0.company_size).1 ∧
      sub0.mrr = ((pick_plan u0.company_size).2 : ℚ) ∧
      (u0.company_size = .solo → sub0.plan = "starter" ∧ sub0.mrr = 29) ∧
      (u0.company_size = .s2_10 ∨ u0.company_size = .s11_50 →
        sub0.plan = "pro" ∧ sub0.mrr = 79) ∧
      (u0.company_size = .s51_200 → sub0.plan = "business" ∧ sub0.mrr = 199)) :=
  ⟨by simp [eval0_user], claim_c6 u0 ur0 sub0 (by simp [eval0_user])⟩

theorem claim_c8_witness :
    [at0] ≠ [] ∧
    ∃ k, 1 ≤ k ∧ k ≤ [at0].length ∧
      ((runAttempts u0 true 0 0 0 false none [at0]).evs.filter
        (isNamed "checkout_start")).map Event.attempt =
        (List.range k).map (fun i => some (i + 1)) ∧
      ∀ j (hj : j < [at0].length), j < k →
        payment_failure_probability u0.device u0.country ≤ ([at0].get ⟨j, hj⟩).failRoll →
          j + 1 = k :=
  ⟨List.cons_ne_nil _ _, claim_c8 u0 true 0 0 false none [at0] (List.cons_ne_nil _ _)⟩

theorem claim_c9_witness :
    ur0.WF ∧
    (((simUser u0 ur0).1.filter (isNamed "subscription_created")).map Event.event_ts =
        [sub0.subscription_start_ts] ∧
      ((simUser u0 ur0).1.filter (isNamed "cancel_subscription")).map Event.event_ts =
        sub0.churn_ts.toList) :=
  ⟨by decide, claim_c9 u0 ur0 (by decide) sub0 (by simp [eval0_user])⟩

theorem claim_c10_witness :
    (st0.subscribed = true ∧ st0.subscription_start_ts = some 1054 ∧
      30 ≤ pr0.churnDays ∧ pr0.churnDays ≤ 75) ∧
    (retention_guard 1054 (churn_ts_of (pick_plan u0.company_size).1 1054 pr0) 7 = true ∧
      retention_guard 1054 (churn_ts_of (pick_plan u0.company_size).1 1054 pr0) 30 = true ∧
      ((∃ e ∈ (simPost u0 st0 pr0 1).1, e.name = "active_day_7") ↔ pr0.a7Roll < 0.60) ∧
      ((∃ e ∈ (simPost u0 st0 pr0 1).1, e.name = "active_day_30") ↔ pr0.a30Roll < 0.45)) :=
  ⟨⟨rfl, rfl, by decide, by decide⟩,
    claim_c10 u0 st0 pr0 1 1054 rfl rfl (by decide) (by decide)⟩

end FunnelGen
